import Mathlib

/-!
# Verification of the GAME autonomous-agent core

Shallow embedding of the agent layer of the nocturnal stealth-survival
simulation: the generic state machine (`src/core/StateMachine.js`), the
per-agent memory model (`src/enemies/EnemyBase.js`), the tension director
(`src/systems/TensionSystem.js`), the shared search state
(`src/enemies/AIStateMachine.js`), the patrol-learner
(`src/enemies/Rezagado.js`), the hideout registry
(`src/systems/HideoutSystem.js`) and the grid pathfinder
(`src/world/NavigationMesh.js`).

JavaScript numbers are modelled as exact rationals (`ℚ`); the only
irrational operations of the sources are `Math.sqrt` inside the
line-of-sight step count (modelled exactly by `sqrtCeil`, with a bridge
lemma to the real-number form) and the trigonometry of the spiral search
points (modelled over `ℝ`).  `Math.round` is "round half toward +∞",
i.e. `⌊x + 1/2⌋`.  JavaScript `Map`s are modelled as association lists
whose lookup returns the binding of the most recent `set`, and `Set`s as
duplicate-free lists in insertion order.
-/

/-- JavaScript `Math.round`: rounds half-integers toward `+∞`. -/
def jsRound (q : ℚ) : ℤ := ⌊q + 1 / 2⌋

/-- Least natural `n` with `q ≤ n ^ 2`; this is `⌈Real.sqrt q⌉₊` for
nonnegative `q` (see `sqrtCeil_eq_ceil_sqrt`), kept computable so that
concrete line-of-sight checks evaluate mechanically. -/
def sqrtCeil (q : ℚ) : ℕ :=
  (List.range (⌈q⌉.toNat + 2)).findIdx (fun (n : ℕ) => q ≤ (n : ℚ) ^ 2)

-- ─────────────────────────────────────────────────────────────
-- core/StateMachine.js
-- ─────────────────────────────────────────────────────────────

/-- Observable hook invocations of a transition (`onExit` of the old
state, `onEnter` of the new one). -/
inductive HookEvent
  | exited (name : String)
  | entered (name : String)
deriving DecidableEq, Repr

/-- The data of `core/StateMachine.js`: registered state names, current
and previous state, bounded history ring and the re-entrancy guard. -/
structure Machine where
  states : List String
  current : Option String
  previous : Option String
  history : List String
  maxHistory : ℕ
  transitioning : Bool
deriving DecidableEq, Repr

/-- Result of a `setState` call: the returned boolean, the machine
afterwards, the hook invocations performed, and whether the
unknown-state diagnostic was logged (`console.warn`). -/
structure SetStateResult where
  returned : Bool
  machine : Machine
  hooks : List HookEvent
  warned : Bool
deriving DecidableEq, Repr

/-- `StateMachine.setState(name, force)` from `core/StateMachine.js`.
A call made while `_transitioning` is set is deferred to a later
microtask and synchronously returns `false` touching nothing. -/
def Machine.setState (m : Machine) (name : String) (force : Bool) : SetStateResult :=
  if m.transitioning then ⟨false, m, [], false⟩
  else if name ∉ m.states then ⟨false, m, [], true⟩
  else if force = false ∧ m.current = some name then ⟨false, m, [], false⟩
  else
    let exitHooks := match m.current with
      | some c => [HookEvent.exited c]
      | none => []
    let hist := match m.current with
      | some c => (c :: m.history).take m.maxHistory
      | none => m.history
    ⟨true,
     { m with previous := m.current, current := some name, history := hist },
     exitHooks ++ [HookEvent.entered name], false⟩

-- ─────────────────────────────────────────────────────────────
-- enemies/EnemyBase.js — last-known-position memory
-- ─────────────────────────────────────────────────────────────

/-- A 3-D point with exact rational coordinates. -/
structure Vec3 where
  x : ℚ
  y : ℚ
  z : ℚ
deriving DecidableEq, Repr

/-- The memory block of `EnemyBase`: `_lastKnownPlayerPos`,
`_memoryDecayTimer` and `_memoryDecayTimeout` (120 s). -/
structure EnemyMemory where
  lastKnownPlayerPos : Option Vec3
  memoryDecayTimer : ℚ
  memoryDecayTimeout : ℚ
deriving DecidableEq, Repr

/-- `EnemyBase._updateMemoryDecay(dt)`: while a position is remembered
the timer accumulates every update; reaching the timeout clears the
memory and resets the timer.  Runs from `update` in every FSM state. -/
def updateMemoryDecay (dt : ℚ) (e : EnemyMemory) : EnemyMemory :=
  match e.lastKnownPlayerPos with
  | none => e
  | some _ =>
    let t := e.memoryDecayTimer + dt
    if e.memoryDecayTimeout ≤ t then
      { e with lastKnownPlayerPos := none, memoryDecayTimer := 0 }
    else
      { e with memoryDecayTimer := t }

/-- The memory effect of `EnemyBase._onPlayerSpotted`: the position is
overwritten; the decay timer is left untouched (the FSM side effect of
the sighting is outside this memory block). -/
def onPlayerSpotted (p : Vec3) (e : EnemyMemory) : EnemyMemory :=
  { e with lastKnownPlayerPos := some p }

/-- Fresh memory as established by a sighting at `p`: the constructor
initialises the timer to `0` and the timeout to `120`. -/
def memoryAfterSighting (p : Vec3) : EnemyMemory :=
  ⟨some p, 0, 120⟩

/-- `n` one-second simulation updates of the memory block. -/
def runSeconds (n : ℕ) (e : EnemyMemory) : EnemyMemory :=
  (updateMemoryDecay 1)^[n] e

-- ─────────────────────────────────────────────────────────────
-- systems/TensionSystem.js
-- ─────────────────────────────────────────────────────────────

/-- What `_updateTension` reads from one enemy: mesh visibility, the
active FSM state name (`enemy.fsm?.name`), and the distance between the
enemy mesh and the player. -/
structure EnemyObs where
  visible : Bool
  fsmName : Option String
  dist : ℚ
deriving DecidableEq, Repr

/-- The per-enemy contribution of the loop body of
`TensionSystem._updateTension`: an invisible enemy is skipped
(contributes `0`). -/
def enemySource (e : EnemyObs) : ℚ :=
  if e.visible = false then 0
  else if e.fsmName = some "chase" ∨ e.fsmName = some "frenzy" ∨
      e.fsmName = some "viktor_pursue" then 1
  else if e.fsmName = some "alert" ∨ e.fsmName = some "check_hideout" then
    (if e.dist < 20 then 0.8 else 0)
  else if e.fsmName = some "search" then (if e.dist < 15 then 0.5 else 0)
  else if e.fsmName = some "patrol" then (if e.dist < 10 then 0.3 else 0)
  else 0

/-- `maxSource`: the target tension is the maximum per-enemy
contribution (starting from `0`). -/
def tensionTarget (obs : List EnemyObs) : ℚ :=
  obs.foldl (fun acc e => max acc (enemySource e)) 0

/-- The tension update of `_updateTension`: below the target it rises by
`(target − tension) * 3 * dt` (clamped at 1), otherwise it decays by
`(0.025 + (1 − tension) * 0.01) * dt` (clamped at 0). -/
def tensionStep (tension target dt : ℚ) : ℚ :=
  if tension < target then min (tension + (target - tension) * 3 * dt) 1
  else max (tension - (0.025 + (1 - tension) * 0.01) * dt) 0

/-- Tension after `n` ticks of length `dt` under a sustained target,
starting from `t0`. -/
def tensionIter (target dt t0 : ℚ) (n : ℕ) : ℚ :=
  (fun t => tensionStep t target dt)^[n] t0

-- ─────────────────────────────────────────────────────────────
-- enemies/AIStateMachine.js — SearchState spiral
-- ─────────────────────────────────────────────────────────────

/-- A 3-D point with real coordinates (the spiral uses `Math.cos` /
`Math.sin` / `Math.PI`). -/
structure Vec3R where
  x : ℝ
  y : ℝ
  z : ℝ

/-- `const steps = 12` in `SearchState._buildSpiralPoints`. -/
def spiralSteps : ℕ := 12

/-- `const coils = 3` in `SearchState._buildSpiralPoints`. -/
def spiralCoils : ℚ := 3

/-- The angle of spiral point `i`:
`(i / steps) * Math.PI * 2 * coils`. -/
noncomputable def spiralAngle (i : ℕ) : ℝ :=
  ((i : ℝ) / (spiralSteps : ℝ)) * Real.pi * 2 * (spiralCoils : ℝ)

/-- The radius of spiral point `i`: `(i / steps) * searchRadius`. -/
def spiralRadius (searchR : ℚ) (i : ℕ) : ℚ :=
  ((i : ℚ) / (spiralSteps : ℚ)) * searchR

/-- `SearchState._buildSpiralPoints`, centred on `centre` (the last
known player position, falling back to the enemy position). -/
noncomputable def buildSpiralPoints (centre : Vec3R) (searchR : ℝ) : List Vec3R :=
  (List.range spiralSteps).map fun i =>
    ⟨centre.x + Real.cos (spiralAngle i) * (((i : ℝ) / (spiralSteps : ℝ)) * searchR),
     centre.y,
     centre.z + Real.sin (spiralAngle i) * (((i : ℝ) / (spiralSteps : ℝ)) * searchR)⟩

/-- Modelled from the spec's words for comparison (the claim says the
spiral spans 2.5 coils): the angle point `i` would have with
`coils = 2.5`. -/
noncomputable def spiralAngleSpec (i : ℕ) : ℝ :=
  ((i : ℝ) / (spiralSteps : ℝ)) * Real.pi * 2 * (5 / 2 : ℝ)

/-- `SearchState.onEnter`: `_maxSearchTime = 20 + Math.random() * 10`,
with `u` the sampled value of `Math.random()` (in `[0,1)`). -/
def maxSearchTime (u : ℚ) : ℚ := 20 + u * 10

-- ─────────────────────────────────────────────────────────────
-- core/StateMachine.js — AI state names (string constants)
-- ─────────────────────────────────────────────────────────────

/-- The `AI_STATE` name constants. -/
inductive AIState
  | dormant
  | idle
  | patrol
  | alert
  | search
  | chase
  | checkHideout
  | stunned
  | frenzy
deriving DecidableEq, Repr

-- ─────────────────────────────────────────────────────────────
-- enemies/Rezagado.js — hideout learning
-- ─────────────────────────────────────────────────────────────

/-- The per-enemy data touched by the Rezagado hideout-learning path:
`_knownHideouts` (a Set), `_hideoutUseCount` (a Map), `_usedHideouts`
(ordered, most recent last), `_hideoutToCheck`, the active FSM state
and `_nightLevel`. -/
structure RezagadoMem where
  knownHideouts : List String
  hideoutUseCount : List (String × ℕ)
  usedHideouts : List String
  hideoutToCheck : Option String
  fsmState : AIState
  nightLevel : ℕ
deriving DecidableEq, Repr

/-- `EnemyBase.learnHideout`: `Set.add`. -/
def learnHideout (s : RezagadoMem) (hid : String) : RezagadoMem :=
  if hid ∈ s.knownHideouts then s
  else { s with knownHideouts := s.knownHideouts ++ [hid] }

/-- `EnemyBase.scheduleHideoutCheck`: a hideout already in
`_knownHideouts` is skipped entirely; otherwise it is stored and, unless
the FSM is in chase/frenzy/stunned, the FSM moves to `CHECK_HIDEOUT`. -/
def scheduleHideoutCheck (s : RezagadoMem) (hid : String) : RezagadoMem :=
  if hid ∈ s.knownHideouts then s
  else
    let s' := { s with hideoutToCheck := some hid }
    if s'.fsmState = AIState.chase ∨ s'.fsmState = AIState.frenzy ∨
        s'.fsmState = AIState.stunned then s'
    else { s' with fsmState := AIState.checkHideout }

/-- `Rezagado._onHideoutUsed`: bump the per-night use count, move the
hideout to the end of the ordered usage list, and — on the second use at
night ≥ 2 — call `learnHideout` followed by `scheduleHideoutCheck`. -/
def onHideoutUsed (s : RezagadoMem) (hid : String) : RezagadoMem :=
  let count := ((s.hideoutUseCount.lookup hid).getD 0) + 1
  let s1 : RezagadoMem :=
    { s with
      hideoutUseCount := (hid, count) :: s.hideoutUseCount.filter (fun p => p.1 ≠ hid),
      usedHideouts := s.usedHideouts.filter (fun x => x ≠ hid) ++ [hid] }
  if 2 ≤ count ∧ 2 ≤ s1.nightLevel then
    scheduleHideoutCheck (learnHideout s1 hid) hid
  else s1

/-- A patrol-learner at night 2, patrolling, with no hideout memory. -/
def rezNight2 : RezagadoMem := ⟨[], [], [], none, AIState.patrol, 2⟩

-- ─────────────────────────────────────────────────────────────
-- systems/HideoutSystem.js — Hideout entity
-- ─────────────────────────────────────────────────────────────

/-- Notifications a hideout operation publishes on the bus. -/
inductive HideoutEv
  | closed (id : String)
deriving DecidableEq, Repr

/-- The `Hideout` entity state (mesh visuals are outside the model). -/
structure Hideout where
  id : String
  isOpen : Bool
  isDiscovered : Bool
  requiresDiscovery : Bool
  usesByNight : List (ℕ × ℕ)
  lastUsedAt : ℕ
deriving DecidableEq, Repr

/-- `Hideout.close`: a no-op on an already-closed hideout, otherwise it
clears `isOpen` and emits exactly one `HIDEOUT_CLOSED` notification. -/
def Hideout.close (h : Hideout) : Hideout × List HideoutEv :=
  if h.isOpen = false then (h, [])
  else ({ h with isOpen := false }, [HideoutEv.closed h.id])

/-- `Hideout.destroy`: delegates to `close`; the extra effects are mesh
rotation/offset only. -/
def Hideout.destroy (h : Hideout) : Hideout × List HideoutEv :=
  h.close

/-- `Hideout.recordUse(nightNumber)` at timestamp `now`. -/
def Hideout.recordUse (night now : ℕ) (h : Hideout) : Hideout :=
  let idx := night - 1
  { h with
    usesByNight :=
      (idx, ((h.usesByNight.lookup idx).getD 0) + 1) ::
        h.usesByNight.filter (fun p => p.1 ≠ idx),
    lastUsedAt := now }

/-- The hideout-side effect of `HideoutSystem.discover`. -/
def Hideout.markDiscovered (h : Hideout) : Hideout :=
  { h with isDiscovered := true }

/-- Every operation of the source that mutates a `Hideout` after
construction. -/
inductive HideoutOp
  | recordUse (night now : ℕ)
  | close
  | destroy
  | markDiscovered
deriving DecidableEq, Repr

/-- Apply an operation to a hideout (dropping the emitted events). -/
def applyHideoutOp (op : HideoutOp) (h : Hideout) : Hideout :=
  match op with
  | HideoutOp.recordUse night now => h.recordUse night now
  | HideoutOp.close => h.close.1
  | HideoutOp.destroy => h.destroy.1
  | HideoutOp.markDiscovered => h.markDiscovered

-- ─────────────────────────────────────────────────────────────
-- systems/HideoutSystem.js — registry and nightly closure
-- ─────────────────────────────────────────────────────────────

/-- `const OPEN_COUNTS_PER_NIGHT = [8, 6, 4, 3, 2]`. -/
def openCountsPerNight : List ℕ := [8, 6, 4, 3, 2]

/-- The night's target open-count:
`OPEN_COUNTS_PER_NIGHT[Math.min(nightNumber - 1, length - 1)]`. -/
def targetOpenCount (night : ℕ) : ℕ :=
  openCountsPerNight.getD (min (night - 1) (openCountsPerNight.length - 1)) 0

/-- The registry state touched by `_onNightStart`: the `_all` map (as the
list of its hideouts), the `_open` and `_closed` id sets (insertion
order) and the `_usageQueue` (most recent last). -/
structure HideoutSystemState where
  hideouts : List Hideout
  openIds : List String
  closedIds : List String
  usageQueue : List String
deriving DecidableEq, Repr

/-- `this._all.get(id)`. -/
def findHideout (sys : HideoutSystemState) (id : String) : Option Hideout :=
  sys.hideouts.find? (fun h => h.id = id)

/-- Whether the hideout registered under `id` is currently open. -/
def isOpenId (sys : HideoutSystemState) (id : String) : Bool :=
  match findHideout sys id with
  | some h => h.isOpen
  | none => false

/-- Close the hideout registered under `id` inside the `_all` map. -/
def closeById (hs : List Hideout) (id : String) : List Hideout :=
  hs.map (fun h => if h.id = id then h.close.1 else h)

/-- `Set.add` on an insertion-ordered id set. -/
def addId (l : List String) (id : String) : List String :=
  if id ∈ l then l else l ++ [id]

/-- The closure loop of `_onNightStart`: walk the recency-sorted ids
(newest first), closing every still-open hideout until `remaining` many
have been closed; returns the updated registry and the closed ids in
order. -/
def closeLoop : HideoutSystemState → List String → ℕ → HideoutSystemState × List String
  | sys, [], _ => (sys, [])
  | sys, _ :: _, 0 => (sys, [])
  | sys, id :: rest, n + 1 =>
    match findHideout sys id with
    | some h =>
      if h.isOpen then
        let sys' : HideoutSystemState :=
          { sys with
            hideouts := closeById sys.hideouts id,
            openIds := sys.openIds.filter (fun x => x ≠ id),
            closedIds := addId sys.closedIds id }
        let rec' := closeLoop sys' rest n
        (rec'.1, id :: rec'.2)
      else closeLoop sys rest (n + 1)
    | none => closeLoop sys rest (n + 1)

/-- `currentOpenList`: the open ids whose hideout is open and
discovered. -/
def discoveredOpenIds (sys : HideoutSystemState) : List String :=
  sys.openIds.filter (fun id =>
    match findHideout sys id with
    | some h => h.isOpen && h.isDiscovered
    | none => false)

/-- The synchronous closure step of `HideoutSystem._onNightStart`
(the `_currentNight` bookkeeping and the night-5 randomized mid-night
scheduling are outside this computation).  Returns the updated registry
and the list of ids closed. -/
def onNightStartClosure (sys : HideoutSystemState) (night : ℕ) :
    HideoutSystemState × List String :=
  let targetOpen := targetOpenCount night
  let toClose : ℤ := ((discoveredOpenIds sys).length : ℤ) - (targetOpen : ℤ)
  if 0 < toClose then closeLoop sys sys.usageQueue.reverse toClose.toNat
  else (sys, [])

-- ─────────────────────────────────────────────────────────────
-- world/NavigationMesh.js
-- ─────────────────────────────────────────────────────────────

/-- The navigation grid: the cell size and the final lookup table of the
`_walkable` map (`isWalkable` treats a missing key as blocked, so the
map is modelled by its characteristic function on grid keys). -/
structure NavMesh where
  cellSize : ℚ
  walkable : ℤ → ℤ → Bool

/-- `NavigationMesh._key(x, z)`: quantize to the cell grid. -/
def NavMesh.keyOf (m : NavMesh) (x z : ℚ) : ℤ × ℤ :=
  (jsRound (x / m.cellSize), jsRound (z / m.cellSize))

/-- `NavigationMesh.isWalkable`: `v === true` — missing cells are
blocked. -/
def NavMesh.isWalkable (m : NavMesh) (x z : ℚ) : Bool :=
  m.walkable (jsRound (x / m.cellSize)) (jsRound (z / m.cellSize))

/-- `NavigationMesh._parseKey`. -/
def NavMesh.parseKey (m : NavMesh) (k : ℤ × ℤ) : ℚ × ℚ :=
  ((k.1 : ℚ) * m.cellSize, (k.2 : ℚ) * m.cellSize)

/-- The snap of `findPath`: `Math.round(v / cellSize) * cellSize`. -/
def snapCoord (m : NavMesh) (q : ℚ) : ℚ :=
  (jsRound (q / m.cellSize) : ℚ) * m.cellSize

/-- `[-k..k]` as integers (the `dx`/`dz` loops of `_nearestWalkable`
with `dx = i * cellSize`). -/
def intRange (k : ℕ) : List ℤ :=
  (List.range (2 * k + 1)).map (fun a => (a : ℤ) - (k : ℤ))

/-- `NavigationMesh._nearestWalkable`: scan rings of radius 1..8 cells
outward (skipping interior offsets), returning the first walkable cell
found; the centre cell itself is never examined. -/
def NavMesh.nearestWalkable (m : NavMesh) (x z : ℚ) : Option (ℚ × ℚ) :=
  ((List.range 8).map (fun a => a + 1)).findSome? fun k =>
    (intRange k).findSome? fun (i : ℤ) =>
      (intRange k).findSome? fun (j : ℤ) =>
        if (i.natAbs = k ∨ j.natAbs = k) ∧
            m.isWalkable (x + (i : ℚ) * m.cellSize) (z + (j : ℚ) * m.cellSize) = true
        then some (x + (i : ℚ) * m.cellSize, z + (j : ℚ) * m.cellSize)
        else none

/-- `NavigationMesh._hasLOS`: sample the segment at half-cell
resolution; `steps = Math.ceil(dist / (cellSize * 0.5))` is expressed
exactly as `sqrtCeil` of `dist² / (cellSize * 0.5)²`. -/
def NavMesh.hasLOS (m : NavMesh) (a b : Vec3) : Bool :=
  let d2 := (b.x - a.x) ^ 2 + (b.z - a.z) ^ 2
  let steps := sqrtCeil (d2 / (m.cellSize * (1 / 2)) ^ 2)
  (List.range' 1 (steps - 1)).all fun i =>
    let t : ℚ := (i : ℚ) / (steps : ℚ)
    m.isWalkable (a.x + (b.x - a.x) * t) (a.z + (b.z - a.z) * t)

/-- The loop body of `NavigationMesh.smoothPath`: drop `path[i]`'s
predecessor decision — when the anchor loses line of sight to `path[i]`,
keep `path[i-1]` and move the anchor there. -/
def smoothStep (m : NavMesh) (pget : ℕ → Vec3) (acc : List Vec3 × ℕ) (i : ℕ) :
    List Vec3 × ℕ :=
  if m.hasLOS (pget acc.2) (pget i) = false then (acc.1 ++ [pget (i - 1)], i - 1)
  else acc

/-- `NavigationMesh.smoothPath`. -/
def NavMesh.smoothPath (m : NavMesh) (path : List Vec3) : List Vec3 :=
  if path.length ≤ 2 then path
  else
    let pget := fun i => path.getD i ⟨0, 0, 0⟩
    let st := (List.range' 2 (path.length - 2)).foldl (smoothStep m pget) ([pget 0], 0)
    st.1 ++ [pget (path.length - 1)]

-- ── MinHeap (world/NavigationMesh.js) ────────────────────────

/-- One `{ item, priority }` record of the `MinHeap`. -/
structure HeapEntry where
  item : ℤ × ℤ
  priority : ℚ
deriving DecidableEq, Repr

instance : Inhabited HeapEntry := ⟨⟨(0, 0), 0⟩⟩

/-- `this._data[i]` (all accesses of the source are in bounds). -/
def heapGet (l : List HeapEntry) (i : ℕ) : HeapEntry := l.getD i default

/-- Exchange `_data[i]` and `_data[j]`. -/
def heapSwap (l : List HeapEntry) (i j : ℕ) : List HeapEntry :=
  (l.set i (heapGet l j)).set j (heapGet l i)

/-- `MinHeap._bubbleUp`, with explicit fuel for the upward walk; the
parent index `(i - 1) / 2` strictly decreases, so fuel `i + 1` (as
supplied by `bubbleUp`) never runs out. -/
def bubbleUpFuel : ℕ → List HeapEntry → ℕ → List HeapEntry
  | 0, l, _ => l
  | fuel + 1, l, i =>
    if i = 0 then l
    else
      let p := (i - 1) / 2
      if (heapGet l p).priority ≤ (heapGet l i).priority then l
      else bubbleUpFuel fuel (heapSwap l p i) p

/-- `MinHeap._bubbleUp(i)`. -/
def bubbleUp (l : List HeapEntry) (i : ℕ) : List HeapEntry :=
  bubbleUpFuel (i + 1) l i

/-- `MinHeap._sinkDown`, with explicit fuel for the downward walk; the
index strictly increases and is bounded by the length, so fuel
`l.length` (as supplied by `sinkDown`) never runs out. -/
def sinkDownFuel : ℕ → List HeapEntry → ℕ → List HeapEntry
  | 0, l, _ => l
  | fuel + 1, l, i =>
    let n := l.length
    let li := 2 * i + 1
    let ri := 2 * i + 2
    let s1 := if li < n ∧ (heapGet l li).priority < (heapGet l i).priority then li else i
    let s2 := if ri < n ∧ (heapGet l ri).priority < (heapGet l s1).priority then ri else s1
    if s2 = i then l else sinkDownFuel fuel (heapSwap l s2 i) s2

/-- `MinHeap._sinkDown(i)`. -/
def sinkDown (l : List HeapEntry) (i : ℕ) : List HeapEntry :=
  sinkDownFuel l.length l i

/-- `MinHeap.push`. -/
def heapPush (l : List HeapEntry) (item : ℤ × ℤ) (priority : ℚ) : List HeapEntry :=
  bubbleUp (l ++ [⟨item, priority⟩]) l.length

/-- `MinHeap.pop`: return the root, move the final element to the root
and sink it down. -/
def heapPop : List HeapEntry → Option (ℤ × ℤ) × List HeapEntry
  | [] => (none, [])
  | [e] => (some e.item, [])
  | top :: e2 :: rest =>
    let full := top :: e2 :: rest
    let last := full.getLastD default
    let kept := full.dropLast
    (some top.item, sinkDown (last :: kept.tail) 0)

-- ── A* (world/NavigationMesh.js, findPath) ───────────────────

/-- `const SQRT2 = 1.41421356` (the literal diagonal cost). -/
def sqrt2Cost : ℚ := 1.41421356

/-- `NavigationMesh._neighbors`: the eight candidate moves with their
costs, filtered by walkability. -/
def NavMesh.neighbors (m : NavMesh) (x z : ℚ) : List ((ℚ × ℚ) × ℚ) :=
  let s := m.cellSize
  ([((x + s, z), 1), ((x - s, z), 1), ((x, z + s), 1), ((x, z - s), 1),
    ((x + s, z + s), sqrt2Cost), ((x - s, z - s), sqrt2Cost),
    ((x + s, z - s), sqrt2Cost), ((x - s, z + s), sqrt2Cost)]).filter
    (fun c => m.isWalkable c.1.1 c.1.2)

/-- JavaScript `Map.set`: the new binding shadows any previous one. -/
def mapSet {α : Type} (l : List ((ℤ × ℤ) × α)) (k : ℤ × ℤ) (v : α) :
    List ((ℤ × ℤ) × α) :=
  (k, v) :: l.filter (fun p => p.1 ≠ k)

/-- The body of `NavigationMesh._reconstruct`: follow `cameFrom` links
from `cur`, prepending each parsed key; the fuel (one more than the map
size, as supplied by `reconstruct`) covers every acyclic chain. -/
def reconstructGo (m : NavMesh) (cameFrom : List ((ℤ × ℤ) × (ℤ × ℤ))) (y : ℚ) :
    ℕ → ℤ × ℤ → List Vec3 → List Vec3
  | 0, _, acc => acc
  | fuel + 1, cur, acc =>
    match cameFrom.lookup cur with
    | none => acc
    | some prev =>
      reconstructGo m cameFrom y fuel prev
        (⟨(m.parseKey cur).1, y, (m.parseKey cur).2⟩ :: acc)

/-- `NavigationMesh._reconstruct(cameFrom, endKey, y)`. -/
def NavMesh.reconstruct (m : NavMesh) (cameFrom : List ((ℤ × ℤ) × (ℤ × ℤ)))
    (endKey : ℤ × ℤ) (y : ℚ) : List Vec3 :=
  reconstructGo m cameFrom y (cameFrom.length + 1) endKey []

/-- One neighbor relaxation of the A* loop of `findPath`: `g` improves
the neighbor's score exactly when it beats the recorded score (a missing
`gScore[current]` is JavaScript `Infinity` and never improves
anything). -/
def relaxNeighbor (m : NavMesh) (resolvedEnd : ℚ × ℚ) (current : ℤ × ℤ)
    (st : List HeapEntry × List ((ℤ × ℤ) × (ℤ × ℤ)) × List ((ℤ × ℤ) × ℚ))
    (nb : (ℚ × ℚ) × ℚ) :
    List HeapEntry × List ((ℤ × ℤ) × (ℤ × ℤ)) × List ((ℤ × ℤ) × ℚ) :=
  let nKey := m.keyOf nb.1.1 nb.1.2
  match st.2.2.lookup current with
  | none => st
  | some gc =>
    let g := gc + nb.2
    let better :=
      match st.2.2.lookup nKey with
      | none => true
      | some gn => g < gn
    if better then
      (heapPush st.1 nKey (g + (|nb.1.1 - resolvedEnd.1| + |nb.1.2 - resolvedEnd.2|)),
       mapSet st.2.1 nKey current, mapSet st.2.2 nKey g)
    else st

/-- The bounded A* loop of `findPath` (`while open.size > 0 && iter++ <
maxIterations`), returning the reconstructed path on reaching the
resolved key and the empty path on exhaustion. -/
def astarGo (m : NavMesh) (resolvedKey : ℤ × ℤ) (resolvedEnd : ℚ × ℚ) (y : ℚ) :
    ℕ → List HeapEntry → List ((ℤ × ℤ) × (ℤ × ℤ)) → List ((ℤ × ℤ) × ℚ) → List Vec3
  | 0, _, _, _ => []
  | fuel + 1, frontier, cameFrom, gScore =>
    if frontier.length = 0 then []
    else
      let popped := heapPop frontier
      match popped.1 with
      | none => []
      | some current =>
        if current = resolvedKey then m.reconstruct cameFrom current y
        else
          let c := m.parseKey current
          let st := (m.neighbors c.1 c.2).foldl
            (relaxNeighbor m resolvedEnd current) (popped.2, cameFrom, gScore)
          astarGo m resolvedKey resolvedEnd y fuel st.1 st.2.1 st.2.2

/-- The default `maxIterations` of `findPath`. -/
def defaultMaxIterations : ℕ := 4000

/-- The key of an endpoint of `findPath` after its snap
(`_key(...snap(v))`). -/
def NavMesh.snapKey (m : NavMesh) (v : Vec3) : ℤ × ℤ :=
  m.keyOf (snapCoord m v.x) (snapCoord m v.z)

/-- `const resolvedEnd = this._nearestWalkable(ex, ez) ?? [ex, ez]` of
`findPath`: the coordinates A* actually aims for.  Note the source calls
`_nearestWalkable` unconditionally, not only when the snapped end cell
is blocked (its comment notwithstanding). -/
def NavMesh.resolveEnd (m : NavMesh) (target : Vec3) : ℚ × ℚ :=
  (m.nearestWalkable (snapCoord m target.x) (snapCoord m target.z)).getD
    (snapCoord m target.x, snapCoord m target.z)

/-- `NavigationMesh.findPath(start, end, maxIterations)`: snap both
endpoints; same-cell queries return `[end.clone()]` immediately;
otherwise the end is resolved through `_nearestWalkable` and A* runs
toward the resolved cell. -/
def NavMesh.findPath (m : NavMesh) (start target : Vec3) (maxIterations : ℕ) :
    List Vec3 :=
  if m.snapKey start = m.snapKey target then [target]
  else
    astarGo m (m.keyOf (m.resolveEnd target).1 (m.resolveEnd target).2)
      (m.resolveEnd target) start.y maxIterations
      (heapPush [] (m.snapKey start) 0) [] (mapSet [] (m.snapKey start) 0)

/-- Spec §8 path validity: consecutive waypoints within one (possibly
diagonal) cell step, all cells walkable. -/
def NavMesh.validPath (m : NavMesh) (p : List Vec3) : Bool :=
  p.all (fun v => m.isWalkable v.x v.z) &&
  (p.zip p.tail).all (fun ab =>
    ((m.keyOf ab.1.x ab.1.z).1 - (m.keyOf ab.2.x ab.2.z).1).natAbs ≤ 1 &&
    ((m.keyOf ab.1.x ab.1.z).2 - (m.keyOf ab.2.x ab.2.z).2).natAbs ≤ 1)

-- ─────────────────────────────────────────────────────────────
-- Concrete fixtures used by the theorems below
-- ─────────────────────────────────────────────────────────────

/-- A two-cell corridor (cell size 1): exactly the cells `(0,0)` and
`(1,0)` are walkable. -/
def mesh2 : NavMesh :=
  ⟨1, fun gx gz => (gx == 0 && gz == 0) || (gx == 1 && gz == 0)⟩

/-- A small grid with a blocked cell at `(1,1)` next to a dog-leg
corridor. -/
def mesh6 : NavMesh :=
  ⟨1, fun gx gz =>
    (gx == 0 && gz == 0) || (gx == 1 && gz == 0) || (gx == 2 && gz == 0) ||
    (gx == 2 && gz == 1) || (gx == 3 && gz == 0)⟩

/-- A valid 4-waypoint path on `mesh6` (unit steps, all cells
walkable). -/
def path6 : List Vec3 := [⟨0, 0, 0⟩, ⟨1, 0, 0⟩, ⟨2, 0, 1⟩, ⟨3, 0, 0⟩]

/-- A grid with no walkable cell at all. -/
def meshBlocked : NavMesh := ⟨1, fun _ _ => false⟩

/-- A registry of eight open, discovered hideouts of which only `h1`
was ever used. -/
def sys8 : HideoutSystemState :=
  ⟨["h1", "h2", "h3", "h4", "h5", "h6", "h7", "h8"].map
      (fun n => ⟨n, true, true, false, [], 0⟩),
   ["h1", "h2", "h3", "h4", "h5", "h6", "h7", "h8"], [], ["h1"]⟩

/-- An open, discovered hideout. -/
def hOpenDemo : Hideout := ⟨"A", true, true, false, [], 0⟩

/-- A machine with two registered states, idling, not mid-transition. -/
def unknownDemoMachine : Machine :=
  ⟨["idle", "patrol"], some "idle", none, [], 8, false⟩

-- ─────────────────────────────────────────────────────────────
-- Theorems
-- ─────────────────────────────────────────────────────────────

set_option maxRecDepth 16000

/-- C9: for every state machine (not mid-transition) and every name not
registered on it, `setState` refuses the transition: it returns `false`,
logs the unknown-state diagnostic, leaves the machine (current state,
previous state, history) unchanged, and fires no enter or exit hooks. -/
theorem setState_unknown_refused (m : Machine) (name : String) (force : Bool)
    (hT : m.transitioning = false) (hU : name ∉ m.states) :
    (m.setState name force).returned = false ∧
    (m.setState name force).machine = m ∧
    (m.setState name force).hooks = [] ∧
    (m.setState name force).warned = true := by
  simp [Machine.setState, hT, hU]

/-- C9 witness: requesting the unregistered name `bogus` on a concrete
machine is refused and logged, with machine and hooks untouched. -/
theorem setState_unknown_refused_witness :
    (unknownDemoMachine.setState "bogus" false).returned = false ∧
    (unknownDemoMachine.setState "bogus" false).machine = unknownDemoMachine ∧
    (unknownDemoMachine.setState "bogus" false).hooks = [] ∧
    (unknownDemoMachine.setState "bogus" false).warned = true :=
  setState_unknown_refused unknownDemoMachine "bogus" false rfl (by decide)

/-- C1: evaluating `Rezagado._onHideoutUsed` at the claim's scenario
(night 2, the same hideout used twice): the second use adds `H` to the
known set, but `scheduleHideoutCheck` — called after `learnHideout` —
returns immediately because `H` is already known, so `_hideoutToCheck`
stays unset and the FSM never enters `CHECK_HIDEOUT`; a third use also
schedules nothing.  This contradicts the code's own comment ("add to
known set and schedule a check") and the spec. -/
theorem rezagado_second_use_schedules_nothing :
    ("H" ∈ (onHideoutUsed (onHideoutUsed rezNight2 "H") "H").knownHideouts) ∧
    (onHideoutUsed (onHideoutUsed rezNight2 "H") "H").hideoutToCheck = none ∧
    (onHideoutUsed (onHideoutUsed rezNight2 "H") "H").fsmState = AIState.patrol ∧
    (onHideoutUsed (onHideoutUsed (onHideoutUsed rezNight2 "H") "H") "H").hideoutToCheck
      = none := by
  decide

/-- C8: `close` flips `isOpen` true→false emitting exactly one closed
notification; closing an already-closed hideout is a complete no-op
emitting nothing; and no operation on a hideout (recordUse, close,
destroy, the discovery flag) ever turns `isOpen` from false back to
true. -/
theorem hideout_close_once_never_reopen (h : Hideout) :
    (h.isOpen = true →
      h.close.1.isOpen = false ∧ h.close.2 = [HideoutEv.closed h.id]) ∧
    (h.isOpen = false → h.close = (h, [])) ∧
    (∀ op : HideoutOp, h.isOpen = false → (applyHideoutOp op h).isOpen = false) ∧
    (∀ op : HideoutOp, (applyHideoutOp op h).isOpen = true → h.isOpen = true) := by
  refine ⟨fun hO => ?_, fun hC => ?_, fun op hC => ?_, fun op => ?_⟩
  · simp [Hideout.close, hO]
  · simp [Hideout.close, hC]
  · cases op <;>
      simp [applyHideoutOp, Hideout.recordUse, Hideout.close, Hideout.destroy,
        Hideout.markDiscovered, hC]
  · cases op <;>
      simp [applyHideoutOp, Hideout.recordUse, Hideout.close, Hideout.destroy,
        Hideout.markDiscovered] <;>
      split <;> simp_all [Hideout.close]

/-- C8 witness: closing a concrete open hideout clears the flag with one
notification, re-closing it is a no-op, and `destroy` cannot reopen
it. -/
theorem hideout_close_once_never_reopen_witness :
    (hOpenDemo.close.1.isOpen = false ∧
      hOpenDemo.close.2 = [HideoutEv.closed hOpenDemo.id]) ∧
    (hOpenDemo.close.1.close = (hOpenDemo.close.1, [])) ∧
    (applyHideoutOp HideoutOp.destroy hOpenDemo.close.1).isOpen = false :=
  ⟨(hideout_close_once_never_reopen hOpenDemo).1 rfl,
   (hideout_close_once_never_reopen hOpenDemo.close.1).2.1 (by decide),
   (hideout_close_once_never_reopen hOpenDemo.close.1).2.2.1 HideoutOp.destroy
     (by decide)⟩

/-- C3 counterexample: eight discovered-open hideouts at night 2 give a
target of 6 and an excess of 2, but with only one hideout in the usage
queue the code closes exactly one — not "exactly the excess". -/
theorem closure_closes_less_than_excess :
    ((discoveredOpenIds sys8).length : ℤ) - (targetOpenCount 2 : ℤ) = 2 ∧
    (onNightStartClosure sys8 2).2 = ["h1"] ∧
    (onNightStartClosure sys8 2).2.length ≠ 2 := by
  decide

/-- `close` never changes a hideout's id. -/
theorem Hideout.close_id (h : Hideout) : h.close.1.id = h.id := by
  rw [Hideout.close]; split <;> rfl

/-- Closing the hideout registered under `id` leaves every lookup by a
different id unchanged. -/
theorem find?_closeById (hs : List Hideout) (id x : String) (hx : x ≠ id) :
    (closeById hs id).find? (fun h => h.id = x) = hs.find? (fun h => h.id = x) := by
  rw [closeById, List.find?_map]
  have hp : ∀ h : Hideout,
      (decide ((if h.id = id then h.close.1 else h).id = x)) = decide (h.id = x) := by
    intro h
    by_cases hb : h.id = id
    · simp [hb, Hideout.close_id, Ne.symm hx]
    · simp [hb]
  rw [show ((fun h : Hideout => decide (h.id = x)) ∘
      (fun h => if h.id = id then h.close.1 else h)) = fun h => decide (h.id = x) from
    funext hp]
  cases hF : hs.find? (fun h => decide (h.id = x)) with
  | none => rfl
  | some b =>
    have hbx : b.id = x := by simpa using List.find?_some hF
    have : ¬ b.id = id := by rw [hbx]; exact hx
    simp [this]

/-- The closure loop closes exactly the first `n` still-open ids of the
scanned list (provided that list has no duplicate ids). -/
theorem closeLoop_spec (ids : List String) : ∀ (sys : HideoutSystemState) (n : ℕ),
    ids.Nodup →
    (closeLoop sys ids n).2 = (ids.filter (fun id => isOpenId sys id)).take n := by
  induction ids with
  | nil => intro sys n _; simp [closeLoop]
  | cons id rest ih =>
    intro sys n hnd
    obtain ⟨hid, hrest⟩ := List.nodup_cons.mp hnd
    cases n with
    | zero => simp [closeLoop]
    | succ k =>
      rw [closeLoop]
      cases hF : findHideout sys id with
      | none =>
        have ho : isOpenId sys id = false := by simp [isOpenId, hF]
        simp [ho, ih sys (k + 1) hrest]
      | some h =>
        by_cases hO : h.isOpen = true
        · have ho : isOpenId sys id = true := by simp [isOpenId, hF, hO]
          simp only [hO, if_true]
          have hsys' :
              (rest.filter (fun x => isOpenId
                { sys with
                  hideouts := closeById sys.hideouts id,
                  openIds := sys.openIds.filter (fun x => x ≠ id),
                  closedIds := addId sys.closedIds id } x)) =
              rest.filter (fun x => isOpenId sys x) := by
            apply List.filter_congr
            intro x hx
            have hxid : x ≠ id := fun hEq => hid (hEq ▸ hx)
            simp only [isOpenId, findHideout, find?_closeById sys.hideouts id x hxid]
          simp only [ih _ k hrest, hsys']
          simp [ho]
        · have ho : isOpenId sys id = false := by
            simp only [isOpenId, hF]
            simpa using hO
          simp only [hO, if_false]
          simp [ho, ih sys (k + 1) hrest]

/-- C3 amended: at night start the registry computes the target
open-count from the fixed schedule (1→8, 2→6, 3→4, 4→3, 5→2) and closes
the most recently used still-open hideouts — the recency queue read
back-to-front — up to the excess of discovered-open hideouts over the
target; if the queue holds fewer open hideouts than the excess, only
those are closed (never-used hideouts are never closed here).  The
result is a pure function of the usage history, hence deterministic. -/
theorem nightly_closure_takes_recent_used :
    (∀ (sys : HideoutSystemState) (night : ℕ), sys.usageQueue.Nodup →
      (onNightStartClosure sys night).2 =
        (sys.usageQueue.reverse.filter (fun id => isOpenId sys id)).take
          (((discoveredOpenIds sys).length : ℤ) - (targetOpenCount night : ℤ)).toNat) ∧
    targetOpenCount 1 = 8 ∧ targetOpenCount 2 = 6 ∧ targetOpenCount 3 = 4 ∧
    targetOpenCount 4 = 3 ∧ targetOpenCount 5 = 2 ∧ targetOpenCount 6 = 2 := by
  refine ⟨fun sys night hnd => ?_, by decide, by decide, by decide, by decide,
    by decide, by decide⟩
  rw [onNightStartClosure]
  by_cases hpos :
      (0 : ℤ) < ((discoveredOpenIds sys).length : ℤ) - (targetOpenCount night : ℤ)
  · simp only [hpos, if_true]
    exact closeLoop_spec sys.usageQueue.reverse sys
      (((discoveredOpenIds sys).length : ℤ) - (targetOpenCount night : ℤ)).toNat
      (List.nodup_reverse.mpr hnd)
  · have : (((discoveredOpenIds sys).length : ℤ) - (targetOpenCount night : ℤ)).toNat
        = 0 := Int.toNat_eq_zero.mpr (le_of_not_lt hpos)
    simp [hpos, this]

/-- C3 witness: the characterization applied to the concrete
eight-hideout registry at night 2. -/
theorem nightly_closure_takes_recent_used_witness :
    (onNightStartClosure sys8 2).2 =
      (sys8.usageQueue.reverse.filter (fun id => isOpenId sys8 id)).take
        (((discoveredOpenIds sys8).length : ℤ) - (targetOpenCount 2 : ℤ)).toNat :=
  nightly_closure_takes_recent_used.1 sys8 2 (by decide)

theorem runSeconds_zero (e : EnemyMemory) : runSeconds 0 e = e := rfl

theorem runSeconds_succ (n : ℕ) (e : EnemyMemory) :
    runSeconds (n + 1) e = runSeconds n (updateMemoryDecay 1 e) :=
  Function.iterate_succ_apply _ _ _

theorem runSeconds_add (a b : ℕ) (e : EnemyMemory) :
    runSeconds (a + b) e = runSeconds a (runSeconds b e) :=
  Function.iterate_add_apply _ _ _ _

/-- One second of decay below the timeout only advances the timer. -/
theorem updateMemoryDecay_below (p : Vec3) (t0 : ℚ) (h : t0 + 1 < 120) :
    updateMemoryDecay 1 ⟨some p, t0, 120⟩ = ⟨some p, t0 + 1, 120⟩ := by
  rw [updateMemoryDecay]
  simp only [not_le.mpr h, if_false]

/-- While the accumulated time stays below the timeout, the remembered
position survives and the timer just adds up. -/
theorem runSeconds_steady (p : Vec3) (n : ℕ) :
    ∀ t0 : ℚ, t0 + n ≤ 119 →
    runSeconds n ⟨some p, t0, 120⟩ = ⟨some p, t0 + n, 120⟩ := by
  induction n with
  | zero => intro t0 _; simp [runSeconds]
  | succ k ih =>
    intro t0 h
    have hk : (0 : ℚ) ≤ k := by positivity
    have h1 : t0 + 1 < 120 := by push_cast at h; linarith
    rw [runSeconds_succ, updateMemoryDecay_below p t0 h1,
      ih (t0 + 1) (by push_cast at h ⊢; linarith)]
    have : t0 + 1 + (k : ℚ) = t0 + ((k : ℕ) + 1 : ℕ) := by push_cast; ring
    rw [this]

/-- C5 counterexample: a position set at t = 0 and refreshed at
t = 100 s is nevertheless cleared at the 120 s mark — only 20 s after
the refresh — because `_onPlayerSpotted` never resets
`_memoryDecayTimer`; under the claim the memory would survive until
220 s after the original sighting. -/
theorem memory_cleared_despite_refresh :
    (runSeconds 21 (onPlayerSpotted ⟨4, 5, 6⟩
        (runSeconds 100 (memoryAfterSighting ⟨1, 2, 3⟩)))).lastKnownPlayerPos
      = none := by
  have h100 : runSeconds 100 (memoryAfterSighting ⟨1, 2, 3⟩)
      = ⟨some ⟨1, 2, 3⟩, 100, 120⟩ := by
    have := runSeconds_steady ⟨1, 2, 3⟩ 100 0 (by norm_num)
    simpa [memoryAfterSighting] using this
  rw [h100]
  have hre : onPlayerSpotted ⟨4, 5, 6⟩ (⟨some ⟨1, 2, 3⟩, 100, 120⟩ : EnemyMemory)
      = ⟨some ⟨4, 5, 6⟩, 100, 120⟩ := rfl
  rw [hre]
  have h19 : runSeconds 19 (⟨some ⟨4, 5, 6⟩, 100, 120⟩ : EnemyMemory)
      = ⟨some ⟨4, 5, 6⟩, 119, 120⟩ := by
    have := runSeconds_steady ⟨4, 5, 6⟩ 19 100 (by norm_num)
    rw [this]
    norm_num
  rw [show (21 : ℕ) = 2 + 19 from rfl, runSeconds_add, h19,
    show (2 : ℕ) = 1 + 1 from rfl, runSeconds_succ]
  have hclear : updateMemoryDecay 1 (⟨some ⟨4, 5, 6⟩, 119, 120⟩ : EnemyMemory)
      = ⟨none, 0, 120⟩ := by
    rw [updateMemoryDecay]; norm_num
  rw [hclear]
  rfl

/-- C5 amended: the memory is cleared exactly when 120 s of updates
accumulate after it was (re-)established following the last clear; a
refresh overwrites the position but does not restart the 120 s window
(the timer is untouched).  In particular, a position set at t = 0 with
no refresh is still reported at t = 119 s and no longer at t = 121 s —
and the clearing runs from `update` regardless of the FSM state. -/
theorem memory_decay_fixed_window :
    (∀ (e : EnemyMemory) (q : Vec3),
      (onPlayerSpotted q e).memoryDecayTimer = e.memoryDecayTimer ∧
      (onPlayerSpotted q e).lastKnownPlayerPos = some q) ∧
    (∀ (e : EnemyMemory) (p : Vec3) (dt : ℚ), e.lastKnownPlayerPos = some p →
      ((updateMemoryDecay dt e).lastKnownPlayerPos = none ↔
        e.memoryDecayTimeout ≤ e.memoryDecayTimer + dt)) ∧
    (runSeconds 119 (memoryAfterSighting ⟨1, 2, 3⟩)).lastKnownPlayerPos
      = some ⟨1, 2, 3⟩ ∧
    (runSeconds 121 (memoryAfterSighting ⟨1, 2, 3⟩)).lastKnownPlayerPos = none := by
  refine ⟨fun e q => ⟨rfl, rfl⟩, fun e p dt hp => ?_, ?_, ?_⟩
  · rw [updateMemoryDecay, hp]
    by_cases hc : e.memoryDecayTimeout ≤ e.memoryDecayTimer + dt
    · simp [hc]
    · simp [hc, hp]
  · have := runSeconds_steady ⟨1, 2, 3⟩ 119 0 (by norm_num)
    simp [memoryAfterSighting, this]
  · have h119 : runSeconds 119 (memoryAfterSighting ⟨1, 2, 3⟩)
        = ⟨some ⟨1, 2, 3⟩, 119, 120⟩ := by
      have := runSeconds_steady ⟨1, 2, 3⟩ 119 0 (by norm_num)
      simpa [memoryAfterSighting] using this
    rw [show (121 : ℕ) = 2 + 119 from rfl, runSeconds_add, h119,
      show (2 : ℕ) = 1 + 1 from rfl, runSeconds_succ]
    have hclear : updateMemoryDecay 1 (⟨some ⟨1, 2, 3⟩, 119, 120⟩ : EnemyMemory)
        = ⟨none, 0, 120⟩ := by
      rw [updateMemoryDecay]; norm_num
    rw [hclear]
    rfl

/-- C5 witness: the clearing criterion applied at a concrete memory
state sitting at timer 119 with a 2 s update. -/
theorem memory_decay_fixed_window_witness :
    (updateMemoryDecay 2
        (⟨some ⟨1, 2, 3⟩, 119, 120⟩ : EnemyMemory)).lastKnownPlayerPos = none ↔
      (120 : ℚ) ≤ 119 + 2 :=
  memory_decay_fixed_window.2.1 ⟨some ⟨1, 2, 3⟩, 119, 120⟩ ⟨1, 2, 3⟩ 2 rfl

/-- The fold accumulator only grows under `max`. -/
theorem tensionFold_acc_le (l : List EnemyObs) :
    ∀ acc : ℚ, acc ≤ l.foldl (fun a e => max a (enemySource e)) acc := by
  induction l with
  | nil => intro acc; simp
  | cons e rest ih =>
    intro acc
    exact le_trans (le_max_left acc (enemySource e)) (ih _)

/-- Every member's contribution is below the fold of `max`. -/
theorem tensionFold_mem_le (l : List EnemyObs) :
    ∀ (acc : ℚ) (e : EnemyObs), e ∈ l →
      enemySource e ≤ l.foldl (fun a x => max a (enemySource x)) acc := by
  induction l with
  | nil => intro _ e he; cases he
  | cons x rest ih =>
    intro acc e he
    rcases List.mem_cons.mp he with rfl | hm
    · exact le_trans (le_max_right acc (enemySource e)) (tensionFold_acc_le rest _)
    · exact ih _ e hm

/-- Rising branch: under a sustained target of 1 and a clamped tick
(`0 < dt ≤ 0.1`), a tension strictly below 1 moves up by exactly
`(1 − tension) · 3 · dt` — unclamped — and stays strictly below 1. -/
theorem tension_rise_step (t dt : ℚ) (hdt : 0 < dt) (hdt1 : dt ≤ 0.1)
    (ht1 : t < 1) :
    tensionStep t 1 dt = t + (1 - t) * 3 * dt ∧
    t < tensionStep t 1 dt ∧ tensionStep t 1 dt < 1 := by
  have hsub : 0 < 1 - t := by linarith
  have hlt : t + (1 - t) * 3 * dt < 1 := by nlinarith
  have heq : tensionStep t 1 dt = t + (1 - t) * 3 * dt := by
    rw [tensionStep, if_pos ht1, min_eq_left (le_of_lt hlt)]
  refine ⟨heq, ?_, ?_⟩
  · rw [heq]; nlinarith
  · rw [heq]; exact hlt

/-- Decay branch: under a sustained target of 0, tension loses at most
`0.035 · dt` per tick, and strictly decreases while positive. -/
theorem tension_decay_step (t dt : ℚ) (hdt : 0 < dt) (ht0 : 0 ≤ t) (ht1 : t ≤ 1) :
    t - tensionStep t 0 dt ≤ 0.035 * dt ∧ (0 < t → tensionStep t 0 dt < t) := by
  have hbr : tensionStep t 0 dt = max (t - (0.025 + (1 - t) * 0.01) * dt) 0 := by
    rw [tensionStep, if_neg (not_lt.mpr ht0)]
  have hrate0 : (0 : ℚ) < 0.025 + (1 - t) * 0.01 := by nlinarith
  have hrate : (0.025 + (1 - t) * 0.01) ≤ 0.035 := by nlinarith
  constructor
  · rcases le_total (t - (0.025 + (1 - t) * 0.01) * dt) 0 with hc | hc
    · rw [hbr, max_eq_right hc]; nlinarith
    · rw [hbr, max_eq_left hc]; nlinarith
  · intro htpos
    rw [hbr]
    apply max_lt _ htpos
    nlinarith

/-- Invariant of the rise iteration: starting from 0 the tension stays
in `[0, 1)`. -/
theorem tensionIter_bounds (dt : ℚ) (hdt : 0 < dt) (hdt1 : dt ≤ 0.1) (n : ℕ) :
    0 ≤ tensionIter 1 dt 0 n ∧ tensionIter 1 dt 0 n < 1 := by
  induction n with
  | zero => norm_num [tensionIter]
  | succ k ih =>
    have hstep := tension_rise_step (tensionIter 1 dt 0 k) dt hdt hdt1 ih.2
    have : tensionIter 1 dt 0 (k + 1) = tensionStep (tensionIter 1 dt 0 k) 1 dt :=
      Function.iterate_succ_apply' _ _ _
    rw [this]
    exact ⟨le_trans ih.1 (le_of_lt hstep.2.1), hstep.2.2⟩

/-- C4: each tick moves the tension toward the target — the maximum
per-agent contribution — asymmetrically.  Below the target it rises by
exactly `(target − tension) · 3 · dt` per tick (unclamped for clamped
ticks `dt ≤ 0.1`), so from 0 under a sustained target of 1 it strictly
increases on every tick, indefinitely — in particular for the first
second; at or above the target it decays by
`(0.025 + (1 − tension) · 0.01) · dt ≤ 0.035 · dt`, strictly decreasing
while positive. -/
theorem tension_dynamics :
    (∀ (obs : List EnemyObs) (e : EnemyObs), e ∈ obs →
      enemySource e ≤ tensionTarget obs) ∧
    (∀ t dt : ℚ, 0 < dt → dt ≤ 0.1 → t < 1 →
      tensionStep t 1 dt = t + (1 - t) * 3 * dt ∧
      t < tensionStep t 1 dt ∧ tensionStep t 1 dt < 1) ∧
    (∀ dt : ℚ, 0 < dt → dt ≤ 0.1 → ∀ n : ℕ,
      tensionIter 1 dt 0 n < tensionIter 1 dt 0 (n + 1)) ∧
    (∀ t dt : ℚ, 0 < dt → 0 ≤ t → t ≤ 1 →
      t - tensionStep t 0 dt ≤ 0.035 * dt ∧ (0 < t → tensionStep t 0 dt < t)) := by
  refine ⟨fun obs e he => tensionFold_mem_le obs 0 e he,
    fun t dt h1 h2 h4 => tension_rise_step t dt h1 h2 h4,
    fun dt h1 h2 n => ?_,
    fun t dt h1 h2 h3 => tension_decay_step t dt h1 h2 h3⟩
  have hb := tensionIter_bounds dt h1 h2 n
  have hstep := tension_rise_step (tensionIter 1 dt 0 n) dt h1 h2 hb.2
  have : tensionIter 1 dt 0 (n + 1) = tensionStep (tensionIter 1 dt 0 n) 1 dt :=
    Function.iterate_succ_apply' _ _ _
  rw [this]
  exact hstep.2.1

/-- C4 witness: the rise and decay properties at tension 1/2 with the
maximal clamped tick `dt = 0.1`. -/
theorem tension_dynamics_witness :
    (tensionStep (1 / 2) 1 (1 / 10) = 1 / 2 + (1 - 1 / 2) * 3 * (1 / 10) ∧
      (1 / 2 : ℚ) < tensionStep (1 / 2) 1 (1 / 10) ∧
      tensionStep (1 / 2) 1 (1 / 10) < 1) ∧
    ((1 / 2 : ℚ) - tensionStep (1 / 2) 0 (1 / 10) ≤ 0.035 * (1 / 10) ∧
      ((0 : ℚ) < 1 / 2 → tensionStep (1 / 2) 0 (1 / 10) < 1 / 2)) :=
  ⟨tension_dynamics.2.1 (1 / 2) (1 / 10) (by norm_num) (by norm_num) (by norm_num),
   tension_dynamics.2.2.2 (1 / 2) (1 / 10) (by norm_num) (by norm_num) (by norm_num)⟩

/-- The source spiral angle in closed form: `(i/12)·2π·3 = i·π/2`. -/
theorem spiralAngle_eq (i : ℕ) : spiralAngle i = (i : ℝ) * Real.pi / 2 := by
  rw [spiralAngle, spiralSteps, spiralCoils]
  push_cast
  ring

/-- C7 counterexample: the spiral spans 3 coils, not 2.5 — already the
angles of point 1 differ (`π/2` against `5π/12`) — and with
`searchRadius = 8` the largest radius attained by the 12 points is
`22/3`, not `8`. -/
theorem spiral_three_coils_not_spec :
    spiralAngle 1 ≠ spiralAngleSpec 1 ∧
    ((List.range spiralSteps).map (spiralRadius 8)).foldl max 0 ≠ 8 := by
  constructor
  · intro h
    have hπ := Real.pi_pos
    rw [spiralAngle, spiralAngleSpec, spiralSteps, spiralCoils] at h
    push_cast at h
    linarith
  · rw [show List.range spiralSteps =
      [0, 1, 2, 3, 4, 5, 6, 7, 8, 9, 10, 11] from rfl]
    norm_num [spiralRadius, spiralSteps, max_def]

/-- C7 amended: on entering Search the agent builds exactly 12
Archimedean-spiral points centred on the last-known position, point `i`
at angle `(i/12)·2π·3 = i·π/2` (3 coils, not 2.5) and radius
`(i/12)·searchRadius` — so the largest attained radius is
`(11/12)·searchRadius` — and the randomized total search duration
`20 + u·10` lies in `[20, 30)`. -/
theorem spiral_points_characterized :
    (∀ (c : Vec3R) (R : ℝ), (buildSpiralPoints c R).length = 12) ∧
    (∀ (c : Vec3R) (R : ℝ) (i : ℕ), i < 12 →
      (buildSpiralPoints c R).getD i ⟨0, 0, 0⟩ =
        ⟨c.x + Real.cos ((i : ℝ) * Real.pi / 2) * ((i : ℝ) / 12 * R), c.y,
         c.z + Real.sin ((i : ℝ) * Real.pi / 2) * ((i : ℝ) / 12 * R)⟩) ∧
    (∀ R : ℚ, 0 ≤ R →
      spiralRadius R 11 = 11 / 12 * R ∧
      ∀ i : ℕ, i < 12 → spiralRadius R i ≤ spiralRadius R 11) ∧
    (∀ u : ℚ, 0 ≤ u → u < 1 → 20 ≤ maxSearchTime u ∧ maxSearchTime u < 30) := by
  refine ⟨fun c R => by simp [buildSpiralPoints, spiralSteps],
    fun c R i hi => ?_, fun R hR => ⟨?_, fun i hi => ?_⟩, fun u h0 h1 => ?_⟩
  · rw [buildSpiralPoints]
    rw [List.getD_eq_getElem?_getD, List.getElem?_map,
      List.getElem?_range (by simpa [spiralSteps] using hi)]
    simp only [Option.map_some', Option.getD_some]
    rw [Vec3R.mk.injEq]
    refine ⟨?_, rfl, ?_⟩
    · rw [spiralAngle_eq, spiralSteps]; push_cast; ring
    · rw [spiralAngle_eq, spiralSteps]; push_cast; ring
  · rw [spiralRadius, spiralSteps]; push_cast; ring
  · have hle : (i : ℚ) ≤ 11 := by exact_mod_cast Nat.le_of_lt_succ hi
    rw [spiralRadius, spiralRadius, spiralSteps]
    push_cast
    nlinarith
  · simp only [maxSearchTime]
    constructor <;> nlinarith

/-- C7 witness: the characterization at centre 0, searchRadius 8 and
random draw 1/2. -/
theorem spiral_points_characterized_witness :
    (buildSpiralPoints ⟨0, 0, 0⟩ 8).length = 12 ∧
    spiralRadius 8 11 = 11 / 12 * 8 ∧
    (20 ≤ maxSearchTime (1 / 2) ∧ maxSearchTime (1 / 2) < 30) :=
  ⟨spiral_points_characterized.1 ⟨0, 0, 0⟩ 8,
   (spiral_points_characterized.2.2.1 8 (by norm_num)).1,
   spiral_points_characterized.2.2.2 (1 / 2) (by norm_num) (by norm_num)⟩

/-- When the start cell already is the resolved target cell, the first
A* iteration pops it and reconstructs the empty path (the start never
has a `cameFrom` entry). -/
theorem astar_first_pop (m : NavMesh) (rk : ℤ × ℤ) (re : ℚ × ℚ) (y : ℚ) (f : ℕ)
    (gs : List ((ℤ × ℤ) × ℚ)) :
    astarGo m rk re y (f + 1) (heapPush [] rk 0) [] gs = [] := by
  simp [astarGo, heapPush, bubbleUp, bubbleUpFuel, heapPop,
    NavMesh.reconstruct, reconstructGo]

/-- On the two-cell corridor, `_nearestWalkable` of the walkable cell
`(1,0)` returns its neighbour `(0,0)` — the centre cell is never
examined. -/
theorem mesh2_nearest_redirects : mesh2.nearestWalkable 1 0 = some (0, 0) := by
  have hr : ((List.range 8).map (fun a => a + 1)) = [1, 2, 3, 4, 5, 6, 7, 8] := by rfl
  have hi : intRange 1 = [-1, 0, 1] := by rfl
  rw [NavMesh.nearestWalkable, hr]
  norm_num [List.findSome?, hi, NavMesh.isWalkable, jsRound, Int.floor_eq_iff, mesh2]

/-- C2: evaluation at the failing input.  On the two-cell corridor the
snapped end cell `(1,0)` is walkable, yet `findPath` still redirects the
target — `_nearestWalkable` is called unconditionally (despite the
source comment "snap end to nearest walkable **if blocked**") and never
examines the centre cell, so the resolved end is the start cell `(0,0)`
— and the query between two adjacent walkable cells consequently
returns the empty path. -/
theorem findPath_redirects_walkable_end :
    mesh2.isWalkable 1 0 = true ∧
    mesh2.snapKey ⟨1, 0, 0⟩ = (1, 0) ∧
    mesh2.resolveEnd ⟨1, 0, 0⟩ = (0, 0) ∧
    mesh2.findPath ⟨0, 0, 0⟩ ⟨1, 0, 0⟩ defaultMaxIterations = [] := by
  have hs0 : snapCoord mesh2 0 = 0 := by
    norm_num [snapCoord, jsRound, Int.floor_eq_iff, mesh2]
  have hs1 : snapCoord mesh2 1 = 1 := by
    norm_num [snapCoord, jsRound, Int.floor_eq_iff, mesh2]
  have hk0 : mesh2.keyOf 0 0 = (0, 0) := by
    norm_num [NavMesh.keyOf, jsRound, Int.floor_eq_iff, mesh2]
  have hk1 : mesh2.keyOf 1 0 = (1, 0) := by
    norm_num [NavMesh.keyOf, jsRound, Int.floor_eq_iff, mesh2]
  have hA : mesh2.snapKey ⟨0, 0, 0⟩ = (0, 0) := by
    rw [NavMesh.snapKey]; simp only [hs0]; exact hk0
  have hB : mesh2.snapKey ⟨1, 0, 0⟩ = (1, 0) := by
    rw [NavMesh.snapKey]; simp only [hs0, hs1]; exact hk1
  have hR : mesh2.resolveEnd ⟨1, 0, 0⟩ = (0, 0) := by
    rw [NavMesh.resolveEnd]; simp only [hs0, hs1, mesh2_nearest_redirects]; rfl
  refine ⟨by norm_num [NavMesh.isWalkable, jsRound, Int.floor_eq_iff, mesh2],
    hB, hR, ?_⟩
  rw [NavMesh.findPath, hA, hB, if_neg (by decide), hR, hk0, defaultMaxIterations,
    show (4000 : ℕ) = 3999 + 1 from by norm_num, astar_first_pop]

/-- C10: whenever start and end snap to the same grid cell, `findPath`
returns the one-element path holding the unsnapped end point itself,
before any walkability lookup — so the result is never empty there, for
every grid, including one whose shared cell is blocked. -/
theorem findPath_same_cell_returns_end (m : NavMesh) (s t : Vec3) (maxIter : ℕ)
    (h : m.snapKey s = m.snapKey t) :
    m.findPath s t maxIter = [t] ∧ m.findPath s t maxIter ≠ [] := by
  rw [NavMesh.findPath, if_pos h]
  exact ⟨rfl, by simp⟩

/-- C10 witness: on the fully blocked grid, a same-cell query still
returns the end point (whose cell is blocked). -/
theorem findPath_same_cell_returns_end_witness :
    meshBlocked.isWalkable (1 / 5) (1 / 5) = false ∧
    meshBlocked.findPath ⟨1 / 10, 0, 1 / 5⟩ ⟨1 / 5, 0, 1 / 5⟩ 4000
      = [⟨1 / 5, 0, 1 / 5⟩] ∧
    meshBlocked.findPath ⟨1 / 10, 0, 1 / 5⟩ ⟨1 / 5, 0, 1 / 5⟩ 4000 ≠ [] :=
  ⟨rfl,
   findPath_same_cell_returns_end meshBlocked ⟨1 / 10, 0, 1 / 5⟩ ⟨1 / 5, 0, 1 / 5⟩ 4000
     (by norm_num [NavMesh.snapKey, snapCoord, NavMesh.keyOf, jsRound,
       Int.floor_eq_iff, meshBlocked])⟩

/-- C6 counterexample: `path6` is a valid path on `mesh6` (unit steps,
walkable cells), yet a second smoothing drops a further waypoint: the
first pass keeps waypoint 1 because the anchor 0 has no line of sight to
waypoint 2, but from waypoint 0 the line of sight to the final waypoint
is clear, so the second pass removes waypoint 1. -/
theorem smoothPath_not_idempotent :
    mesh6.validPath path6 = true ∧
    mesh6.smoothPath (mesh6.smoothPath path6) ≠ mesh6.smoothPath path6 := by
  constructor
  · norm_num [NavMesh.validPath, path6, NavMesh.keyOf, NavMesh.isWalkable, jsRound,
      Int.floor_eq_iff, mesh6]
  · norm_num [NavMesh.smoothPath, path6, smoothStep, List.range',
      NavMesh.hasLOS, sqrtCeil, List.findIdx, List.findIdx.go,
      NavMesh.isWalkable, jsRound, Int.floor_eq_iff, mesh6]

/-- Paths of at most two waypoints are returned unchanged. -/
theorem smoothPath_le_two (m : NavMesh) (p : List Vec3) (h : p.length ≤ 2) :
    m.smoothPath p = p := by
  rw [NavMesh.smoothPath, if_pos h]

/-- A three-waypoint path keeps or drops its middle waypoint according
to the anchor's line of sight to the final waypoint. -/
theorem smoothPath_three (m : NavMesh) (a b c : Vec3) :
    m.smoothPath [a, b, c] =
      if m.hasLOS a c = false then [a, b, c] else [a, c] := by
  by_cases h : m.hasLOS a c = false
  · simp [NavMesh.smoothPath, smoothStep, List.range', h]
  · simp [NavMesh.smoothPath, smoothStep, List.range', h]

/-- The smoothing fold only ever appends to the kept-waypoint list. -/
theorem smooth_fold_acc (m : NavMesh) (pget : ℕ → Vec3) (l : List ℕ) :
    ∀ acc : List Vec3 × ℕ,
      ∃ tl, (l.foldl (smoothStep m pget) acc).1 = acc.1 ++ tl := by
  induction l with
  | nil => intro acc; exact ⟨[], by simp⟩
  | cons i rest ih =>
    intro acc
    rw [List.foldl_cons]
    obtain ⟨tl, htl⟩ := ih (smoothStep m pget acc i)
    by_cases h : m.hasLOS (pget acc.2) (pget i) = false
    · exact ⟨[pget (i - 1)] ++ tl, by
        rw [htl, smoothStep, if_pos h]; simp⟩
    · exact ⟨tl, by rw [htl, smoothStep, if_neg h]⟩

/-- C6 amended: smoothing is not idempotent in general (a second pass
can drop further waypoints, see the counterexample on a 4-waypoint valid
path); it is idempotent on paths of at most three waypoints, and every
pass preserves the first and the last waypoint. -/
theorem smoothPath_small_idempotent_endpoints :
    (∀ (m : NavMesh) (p : List Vec3), p.length ≤ 3 →
      m.smoothPath (m.smoothPath p) = m.smoothPath p) ∧
    (∀ (m : NavMesh) (p : List Vec3), p ≠ [] →
      (m.smoothPath p).head? = p.head? ∧
      (m.smoothPath p).getLast? = p.getLast?) := by
  constructor
  · intro m p hlen
    match p with
    | [] => rw [smoothPath_le_two m [] (by simp), smoothPath_le_two m [] (by simp)]
    | [a] =>
      rw [smoothPath_le_two m [a] (by simp), smoothPath_le_two m [a] (by simp)]
    | [a, b] =>
      rw [smoothPath_le_two m [a, b] (by simp), smoothPath_le_two m [a, b] (by simp)]
    | [a, b, c] =>
      rw [smoothPath_three m a b c]
      by_cases h : m.hasLOS a c = false
      · rw [if_pos h, smoothPath_three m a b c, if_pos h]
      · rw [if_neg h, smoothPath_le_two m [a, c] (by simp)]
    | _ :: _ :: _ :: _ :: _ => simp at hlen
  · intro m p hne
    by_cases hlen : p.length ≤ 2
    · rw [smoothPath_le_two m p hlen]; exact ⟨rfl, rfl⟩
    · have h0 : 0 < p.length := List.length_pos.mpr hne
      have hN : p.length - 1 < p.length := by omega
      simp only [NavMesh.smoothPath, if_neg hlen]
      obtain ⟨tl, htl⟩ := smooth_fold_acc m (fun i => p.getD i ⟨0, 0, 0⟩)
        (List.range' 2 (p.length - 2)) ([p.getD 0 ⟨0, 0, 0⟩], 0)
      rw [htl]
      constructor
      · cases p with
        | nil => exact absurd rfl hne
        | cons a t => simp
      · rw [List.getLast?_concat, List.getLast?_eq_getElem?,
          List.getElem?_eq_getElem hN]
        simp [List.getElem?_eq_getElem hN]

/-- C6 witness: idempotence on a 3-waypoint path and endpoint
preservation on `path6`. -/
theorem smoothPath_small_idempotent_endpoints_witness :
    mesh6.smoothPath (mesh6.smoothPath [⟨0, 0, 0⟩, ⟨1, 0, 0⟩, ⟨3, 0, 0⟩]) =
      mesh6.smoothPath [⟨0, 0, 0⟩, ⟨1, 0, 0⟩, ⟨3, 0, 0⟩] ∧
    (mesh6.smoothPath path6).head? = path6.head? ∧
    (mesh6.smoothPath path6).getLast? = path6.getLast? :=
  ⟨smoothPath_small_idempotent_endpoints.1 mesh6 _ (by norm_num),
   (smoothPath_small_idempotent_endpoints.2 mesh6 path6 (by simp [path6])).1,
   (smoothPath_small_idempotent_endpoints.2 mesh6 path6 (by simp [path6])).2⟩

/-- `sqrtCeil` agrees with the direct real-number transcription of the
source (`Math.ceil` of `Math.sqrt`): it is exactly `⌈√q⌉₊`. -/
theorem sqrtCeil_eq_ceil_sqrt (q : ℚ) (hq : 0 ≤ q) :
    sqrtCeil q = ⌈Real.sqrt (q : ℝ)⌉₊ := by
  have key : ∀ k : ℕ, (q ≤ (k : ℚ) ^ 2) ↔ (⌈Real.sqrt (q : ℝ)⌉₊ ≤ k) := by
    intro k
    rw [Nat.ceil_le, Real.sqrt_le_left (by positivity)]
    exact_mod_cast Iff.rfl
  have hqc : q ≤ ((⌈q⌉.toNat : ℚ) + 1) ^ 2 := by
    have h1 : q ≤ (⌈q⌉.toNat : ℚ) := by
      rw [show ((⌈q⌉.toNat : ℚ)) = ((⌈q⌉.toNat : ℤ) : ℚ) from by push_cast; ring,
        Int.toNat_of_nonneg (Int.ceil_nonneg hq)]
      exact Int.le_ceil q
    nlinarith [(by positivity : (0 : ℚ) ≤ (⌈q⌉.toNat : ℚ))]
  have hb : ⌈Real.sqrt (q : ℝ)⌉₊ ≤ ⌈q⌉.toNat + 1 := by
    rw [← key]
    exact_mod_cast hqc
  have hlen : ⌈Real.sqrt (q : ℝ)⌉₊ < (List.range (⌈q⌉.toNat + 2)).length := by
    simp only [List.length_range]
    omega
  rw [sqrtCeil]
  apply (List.findIdx_eq hlen).mpr
  refine ⟨?_, fun j hj => ?_⟩
  · simp only [List.getElem_range, decide_eq_true_eq]
    exact (key _).mpr le_rfl
  · simp only [List.getElem_range, decide_eq_false_iff_not]
    intro hc
    exact absurd ((key j).mp hc) (by omega)
